import Mathlib

/-!
Shallow embedding of `src/prototype_app.py` (SmartEdU IR prototype):
the grades-table normalization (lines 63-68), course-metadata merge
(lines 76-81), document text extraction (lines 42-56), per-student
document listing (lines 87-96), and the query handler `index`
(lines 98-199: matching steps 1-3 and the result filter step 4).

Tabular data loaded through `load_csv_safe` is all-string (`dtype=str`
plus `fillna("")`), so pre-merge tables are modelled with `String`
cells.  The pandas left merge introduces missing values (NaN) in
unmatched metadata columns, so merged tables use a cell type `Val`
with an explicit `nan` constructor; Python's `str()` renders NaN as
`"nan"`, modelled by `Val.pyStr`.  Directory listings are modelled as
pure lists in the order `sorted(...iterdir())` yields them; only files
appear inside folders, matching the `is_file()` / `is_dir()` guards.
-/

namespace SmartEdu

/-- A pandas cell after the metadata merge: a string, or missing (NaN). -/
inductive Val where
  | str (s : String)
  | nan
deriving DecidableEq, Repr

/-- Python `str()` applied to a cell: NaN renders as `"nan"`. -/
def Val.pyStr : Val → String
  | .str s => s
  | .nan => "nan"

/-- An all-string dataframe: column names plus rows of cells aligned with them. -/
structure Table where
  cols : List String
  rows : List (List String)
deriving DecidableEq, Repr

/-- A dataframe whose cells may be missing (post-merge). -/
structure VTable where
  cols : List String
  rows : List (List Val)
deriving DecidableEq, Repr

/-- View an all-string table as a `VTable` (no missing cells). -/
def Table.toV (t : Table) : VTable :=
  ⟨t.cols, t.rows.map (fun r => r.map Val.str)⟩

/-- `row.get(name, dflt)` on a pandas row: the cell under column `name`,
or `dflt` when the column is absent. -/
def getCell (cols : List String) (row : List String) (name dflt : String) : String :=
  match (cols.zip row).find? (fun p => p.1 = name) with
  | some p => p.2
  | none => dflt

/-- `row.get(name, "")` on a merged (possibly-NaN) row. -/
def getVCell (cols : List String) (row : List Val) (name : String) : Val :=
  match (cols.zip row).find? (fun p => p.1 = name) with
  | some p => p.2
  | none => .str ""

/-- Containment of one character list in another as a contiguous run. -/
def isSubListOf : List Char → List Char → Bool
  | n, [] => n.isEmpty
  | n, c :: t => n.isPrefixOf (c :: t) || isSubListOf n t

/-- Python `needle in hay` on strings: substring containment. -/
def strIn (needle hay : String) : Bool :=
  isSubListOf needle.toList hay.toList

/-- Python `str.lower()`, character by character. -/
def lowerStr (s : String) : String :=
  ⟨s.data.map Char.toLower⟩

/-- Python `str.strip()`: leading and trailing whitespace removed. -/
def stripStr (s : String) : String :=
  ⟨((s.data.dropWhile Char.isWhitespace).reverse.dropWhile Char.isWhitespace).reverse⟩

/-- Python `s[:n]`: the first `n` characters of a string. -/
def takeStr (s : String) (n : Nat) : String :=
  ⟨s.data.take n⟩

/-- `grades_df.melt(id_vars="student_id", var_name="course_id",
value_name="score")` (line 66): every non-identity column becomes a
`course_id`, stacked column-major as pandas does. -/
def meltTable (t : Table) : Table :=
  let valueCols := t.cols.filter (fun c => c ≠ "student_id")
  { cols := ["student_id", "course_id", "score"],
    rows := valueCols.flatMap (fun c =>
      t.rows.map (fun r => [getCell t.cols r "student_id" "", c, getCell t.cols r c ""])) }

/-- Lines 64-68: melt when the table is non-empty, has a `student_id`
column and more than two columns; otherwise `grades_df.copy()`. -/
def normalizeGrades (t : Table) : Table :=
  if ¬ t.rows.isEmpty ∧ "student_id" ∈ t.cols ∧ t.cols.length > 2 then
    meltTable t
  else
    t

/-- The (entity_id, metric_key, value) triples a table's rows denote, read
the way the query step 2 reads them: `row.get` with default `""`. -/
def metricRecords (t : Table) : List (String × String × String) :=
  t.rows.map (fun r =>
    (getCell t.cols r "student_id" "", getCell t.cols r "course_id" "", getCell t.cols r "score" ""))

/-- `l.merge(r, on=key, how="left")` (line 79) for tables whose non-key
columns are disjoint (no suffixing): every left row is kept; a left row
with no key match gets NaN in the right-only columns; each key match
produces one output row, left order preserved. -/
def mergeLeft (l r : Table) (key : String) : VTable :=
  let rcols := r.cols.filter (fun c => c ≠ key)
  { cols := l.cols ++ rcols,
    rows := l.rows.flatMap (fun lr =>
      let k := getCell l.cols lr key ""
      let hits := r.rows.filter (fun rr => getCell r.cols rr key "" = k)
      if hits.isEmpty then
        [lr.map Val.str ++ rcols.map (fun _ => Val.nan)]
      else
        hits.map (fun rr => lr.map Val.str ++ rcols.map (fun c => Val.str (getCell r.cols rr c "")))) }

/-- A file as the extractor sees it: its suffix, the outcome of reading
it as UTF-8 text (`none` = I/O failure), and the outcome of parsing it
as a PDF (`none` = parse failure / corrupt file; each page's
`extract_text()` may yield nothing). -/
structure FileRef where
  suffix : String
  readResult : Option String
  pdfPages : Option (List (Option String))
deriving DecidableEq, Repr

/-- `extract_text_from_file` (lines 42-56): text of a `.txt` or `.pdf`
file, the empty string on any failure, unsupported suffix, or missing
PDF capability (`PdfReader is None`). -/
def extract_text_from_file (pdfReaderAvail : Bool) (f : FileRef) : String :=
  if lowerStr f.suffix = ".txt" then
    match f.readResult with
    | some s => s
    | none => ""
  else if lowerStr f.suffix = ".pdf" then
    if pdfReaderAvail then
      match f.pdfPages with
      | some pages => pages.foldl (fun text p => text ++ p.getD "") ""
      | none => ""
    else ""
  else ""

/-- One file inside a student folder. -/
structure FileNode where
  filename : String
  ref : FileRef
deriving DecidableEq, Repr

/-- One per-student folder under `UNSTRUCTURED_DIR`, files in sorted order. -/
structure FolderNode where
  name : String
  files : List FileNode
deriving DecidableEq, Repr

/-- `list_student_docs` (lines 87-96), restricted to the filenames the
query handler uses: files of the folder named exactly `student_id.strip()`,
or `[]` when that folder does not exist. -/
def list_student_docs (fs : List FolderNode) (student_id : String) : List String :=
  let sid := stripStr student_id
  match fs.find? (fun folder => folder.name = sid) with
  | some folder => folder.files.map (fun f => f.filename)
  | none => []

/-- One entry of `results["documents"]`. -/
structure DocHit where
  student_id : String
  filename : String
  preview : String
deriving DecidableEq, Repr

/-- The dedup key `(student_id, filename)` of a document hit. -/
def DocHit.key (d : DocHit) : String × String :=
  (d.student_id, d.filename)

/-- The `seen_docs` set together with the `results["documents"]` list. -/
structure SearchState where
  seen : List (String × String)
  docs : List DocHit
deriving DecidableEq, Repr

/-- The guarded append used at lines 123-130, 158-164, 168-176 and
180-188: `if key not in seen_docs: seen_docs.add(key); documents.append(d)`. -/
def pushDoc (key : String × String) (d : DocHit) (st : SearchState) : SearchState :=
  if key ∈ st.seen then st
  else ⟨st.seen ++ [key], st.docs ++ [d]⟩

/-- Lines 121-130: add a matched student's documents as placeholder hits. -/
def addDocs (sid : String) (fnames : List String) (st : SearchState) : SearchState :=
  fnames.foldl (fun st fn =>
    pushDoc (sid, fn) ⟨sid, fn, "(student document)"⟩ st) st

/-- Line 116: the student row matches when the query equals the id
(lowercased) or is a substring of name, programme, or email. -/
def studentMatches (cols : List String) (row : List String) (q : String) : Bool :=
  let sid := stripStr (getCell cols row "student_id" "")
  let name := stripStr (getCell cols row "name" "")
  let programme := stripStr (getCell cols row "programme" "")
  let email := stripStr (getCell cols row "email" "")
  q = lowerStr sid || strIn q (lowerStr name) || strIn q (lowerStr programme) ||
    strIn q (lowerStr email)

/-- One iteration of the student loop (lines 109-130). -/
def step1Row (cols : List String) (fs : List FolderNode) (q : String)
    (acc : List (List String) × SearchState) (row : List String) :
    List (List String) × SearchState :=
  if studentMatches cols row q then
    let sid := stripStr (getCell cols row "student_id" "")
    (acc.1 ++ [row], addDocs sid (list_student_docs fs sid) acc.2)
  else acc

/-- Step 1 (lines 108-130): matched students plus their placeholder doc hits. -/
def step1 (students : Table) (fs : List FolderNode) (q : String) :
    List (List String) × SearchState :=
  students.rows.foldl (step1Row students.cols fs q) ([], ⟨[], []⟩)

/-- `str(row.get(name, "")).strip().lower()` as used at lines 135-138. -/
def courseField (cols : List String) (row : List Val) (name : String) : String :=
  lowerStr (stripStr (getVCell cols row name).pyStr)

/-- Step 2 (lines 132-140): grade rows whose student_id, course_id,
title or lecturer contains the query. -/
def step2 (grades : VTable) (q : String) : List (List Val) :=
  grades.rows.filter (fun row =>
    strIn q (courseField grades.cols row "student_id") ||
    strIn q (courseField grades.cols row "course_id") ||
    strIn q (courseField grades.cols row "title") ||
    strIn q (courseField grades.cols row "lecturer"))

/-- One file of the document loop (lines 150-188): exact-folder-name
rule, then filename rule, then content rule, each guarded by `seen_docs`. -/
def processFile (pdfReaderAvail : Bool) (folderName q : String)
    (st : SearchState) (file : FileNode) : SearchState :=
  let key := (folderName, file.filename)
  if q = lowerStr folderName then
    pushDoc key ⟨folderName, file.filename, "(student document)"⟩ st
  else if strIn q (lowerStr file.filename) then
    let text := extract_text_from_file pdfReaderAvail file.ref
    pushDoc key
      ⟨folderName, file.filename,
        if text = "" then "(no extractable text)" else takeStr text 300⟩ st
  else
    let text := extract_text_from_file pdfReaderAvail file.ref
    if text ≠ "" ∧ strIn q (lowerStr text) then
      pushDoc key ⟨folderName, file.filename, takeStr text 300⟩ st
    else st

/-- One folder of the document loop (lines 146-188). -/
def processFolder (pdfReaderAvail : Bool) (q : String)
    (st : SearchState) (folder : FolderNode) : SearchState :=
  folder.files.foldl (processFile pdfReaderAvail folder.name q) st

/-- Step 3 (lines 142-188): the document search over every folder. -/
def step3 (pdfReaderAvail : Bool) (fs : List FolderNode) (q : String)
    (st : SearchState) : SearchState :=
  fs.foldl (processFolder pdfReaderAvail q) st

/-- The three result sequences handed to the template. -/
structure Results where
  students : List (List String)
  courses : List (List Val)
  documents : List DocHit
deriving DecidableEq, Repr

/-- The initial `results` dict (line 102). -/
def emptyResults : Results :=
  ⟨[], [], []⟩

/-- Step 4 (lines 190-199): the category filter. -/
def applyFilter (filter_type : String) (r : Results) : Results :=
  if filter_type = "students" then { r with courses := [], documents := [] }
  else if filter_type = "courses" then { r with students := [], documents := [] }
  else if filter_type = "docs" then { r with students := [], courses := [] }
  else r

/-- The loaded state the query handler closes over: the students table,
the (normalized, possibly merged) grades table, whether
`UNSTRUCTURED_DIR` exists, its folders in sorted order, and whether
`PyPDF2` imported. -/
structure DB where
  students : Table
  grades : VTable
  dirExists : Bool
  fs : List FolderNode
  pdfReaderAvail : Bool
deriving DecidableEq, Repr

/-- Matching steps 1-3 of the handler (lines 105-188), on the lowercased
query, before the filter is applied. -/
def matchPhase (db : DB) (q : String) : Results :=
  let s1 := step1 db.students db.fs q
  let courses := step2 db.grades q
  let st3 := if db.dirExists then step3 db.pdfReaderAvail db.fs q s1.2 else s1.2
  ⟨s1.1, courses, st3.docs⟩

/-- The query handler `index` (lines 98-199), up to the data handed to
the template: empty results for a blank query, otherwise steps 1-3
followed by the filter. -/
def index (db : DB) (qraw filter_type : String) : Results :=
  let query := stripStr qraw
  if query = "" then emptyResults
  else applyFilter filter_type (matchPhase db (lowerStr (stripStr query)))

/-- The dedup keys of a document-hit list, in order. -/
def docKeys (l : List DocHit) : List (String × String) :=
  l.map DocHit.key

/-- The invariant the handler maintains on its document state: hit keys
are pairwise distinct and every hit's key has been recorded in `seen_docs`. -/
def Inv (st : SearchState) : Prop :=
  (docKeys st.docs).Nodup ∧ ∀ k ∈ docKeys st.docs, k ∈ st.seen

/-- `st` extends `st0`: `seen_docs` only grew, and the document list
grew by appending hits whose keys were not in `st0`'s `seen_docs`. -/
def StExtends (st0 st : SearchState) : Prop :=
  (∀ k ∈ st0.seen, k ∈ st.seen) ∧
  ∃ extra, st.docs = st0.docs ++ extra ∧ ∀ d ∈ extra, d.key ∉ st0.seen

/-- A concrete loaded state used for end-to-end instances: one student
S1 "Ada Lovelace", one grade row, one folder "S1" holding a text file
"s1_notes.txt" containing "midterm review". -/
def exDB : DB :=
  { students := ⟨["student_id", "name"], [["S1", "Ada Lovelace"]]⟩,
    grades := ⟨["student_id", "course_id", "score"],
      [[.str "S1", .str "CS101", .str "88"]]⟩,
    dirExists := true,
    fs := [⟨"S1", [⟨"s1_notes.txt", ⟨".txt", some "midterm review", none⟩⟩]⟩],
    pdfReaderAvail := false }

/-- A wide grades table: columns `student_id,CS101,CS102`, row `S1,88,91`. -/
def wideEx : Table :=
  ⟨["student_id", "CS101", "CS102"], [["S1", "88", "91"]]⟩

/-- An already-long grades table: columns `student_id,course_id,score`,
row `S1,CS101,88`. -/
def longEx : Table :=
  ⟨["student_id", "course_id", "score"], [["S1", "CS101", "88"]]⟩

/-- A long grades table whose only row carries a `course_id` (CS999)
absent from the reference metadata. -/
def gradesEx : Table :=
  ⟨["student_id", "course_id", "score"], [["S1", "CS999", "88"]]⟩

/-- Reference metadata holding only course CS101. -/
def coursesEx : Table :=
  ⟨["course_id", "title"], [["CS101", "Intro"]]⟩

theorem stExtends_refl (st : SearchState) : StExtends st st :=
  ⟨fun _ hk => hk, [], by simp, by simp⟩

theorem stExtends_trans {a b c : SearchState} (h1 : StExtends a b) (h2 : StExtends b c) :
    StExtends a c := by
  obtain ⟨hs1, e1, hd1, hk1⟩ := h1
  obtain ⟨hs2, e2, hd2, hk2⟩ := h2
  refine ⟨fun k hk => hs2 k (hs1 k hk), e1 ++ e2, by rw [hd2, hd1, List.append_assoc], ?_⟩
  intro d hd
  rcases List.mem_append.mp hd with h | h
  · exact hk1 d h
  · exact fun hmem => hk2 d h (hs1 _ hmem)

theorem pushDoc_stExtends (key : String × String) (d : DocHit) (st : SearchState)
    (hk : d.key = key) : StExtends st (pushDoc key d st) := by
  unfold pushDoc
  split
  · exact stExtends_refl st
  · next h =>
    refine ⟨fun k hk2 => List.mem_append.mpr (Or.inl hk2), [d], rfl, ?_⟩
    intro e he
    rw [List.mem_singleton.mp he, hk]
    exact h

theorem pushDoc_inv {st : SearchState} (key : String × String) (d : DocHit)
    (hk : d.key = key) (h : Inv st) : Inv (pushDoc key d st) := by
  obtain ⟨hnd, hsub⟩ := h
  unfold pushDoc
  split
  · exact ⟨hnd, hsub⟩
  · next hnotin =>
    constructor
    · simp only [docKeys, List.map_append, List.map_cons, List.map_nil]
      refine List.Nodup.append hnd (List.nodup_singleton d.key) ?_
      intro a ha hb
      rw [List.mem_singleton] at hb
      subst hb
      have := hsub _ ha
      rw [hk] at this
      exact hnotin this
    · intro k hk2
      simp only [docKeys, List.map_append, List.map_cons, List.map_nil,
        List.mem_append, List.mem_singleton] at hk2 ⊢
      rcases hk2 with h1 | h1
      · exact Or.inl (hsub k (List.mem_map.mpr (by
          rcases List.mem_map.mp h1 with ⟨d2, hd2, hkd⟩
          exact ⟨d2, hd2, hkd⟩)))
      · subst h1
        rw [hk]
        exact Or.inr rfl

theorem pushDoc_mem {key : String × String} {d : DocHit} {st : SearchState} {e : DocHit}
    (he : e ∈ (pushDoc key d st).docs) : e ∈ st.docs ∨ e = d := by
  unfold pushDoc at he
  split at he
  · exact Or.inl he
  · rcases List.mem_append.mp he with h | h
    · exact Or.inl h
    · exact Or.inr (List.mem_singleton.mp h)

theorem foldl_pres {β : Type} (f : SearchState → β → SearchState) (Q : SearchState → Prop)
    (hf : ∀ st b, Q st → Q (f st b)) (xs : List β) :
    ∀ st, Q st → Q (xs.foldl f st) := by
  induction xs with
  | nil => exact fun st h => h
  | cons b xs ih => exact fun st h => ih (f st b) (hf st b h)

theorem foldl_pair_pres {β γ : Type} (f : γ × SearchState → β → γ × SearchState)
    (Q : SearchState → Prop) (hf : ∀ acc b, Q acc.2 → Q ((f acc b).2)) (xs : List β) :
    ∀ acc, Q acc.2 → Q ((xs.foldl f acc).2) := by
  induction xs with
  | nil => exact fun acc h => h
  | cons b xs ih => exact fun acc h => ih (f acc b) (hf acc b h)

theorem foldl_stExtends {β : Type} (f : SearchState → β → SearchState)
    (hf : ∀ st b, StExtends st (f st b)) (xs : List β) (st : SearchState) :
    StExtends st (xs.foldl f st) :=
  foldl_pres f (StExtends st) (fun st2 b h => stExtends_trans h (hf st2 b)) xs st
    (stExtends_refl st)

theorem addDocs_stExtends (sid : String) (fnames : List String) (st : SearchState) :
    StExtends st (addDocs sid fnames st) :=
  foldl_stExtends _
    (fun st2 fn => pushDoc_stExtends (sid, fn) ⟨sid, fn, "(student document)"⟩ st2 rfl)
    fnames st

theorem addDocs_inv (sid : String) (fnames : List String) (st : SearchState)
    (h : Inv st) : Inv (addDocs sid fnames st) :=
  foldl_pres _ Inv
    (fun _ fn h2 => pushDoc_inv (sid, fn) ⟨sid, fn, "(student document)"⟩ rfl h2)
    fnames st h

theorem addDocs_preview (sid : String) (fnames : List String) (st : SearchState)
    (h : ∀ d ∈ st.docs, d.preview = "(student document)") :
    ∀ d ∈ (addDocs sid fnames st).docs, d.preview = "(student document)" :=
  foldl_pres _ (fun st2 => ∀ d ∈ st2.docs, d.preview = "(student document)")
    (fun st2 fn h2 d hd => by
      rcases pushDoc_mem hd with h3 | h3
      · exact h2 d h3
      · rw [h3]) fnames st h

theorem step1Row_stExtends (cols : List String) (fs : List FolderNode) (q : String)
    (acc : List (List String) × SearchState) (row : List String) :
    StExtends acc.2 (step1Row cols fs q acc row).2 := by
  unfold step1Row
  split
  · exact addDocs_stExtends _ _ _
  · exact stExtends_refl _

theorem step1Row_inv (cols : List String) (fs : List FolderNode) (q : String)
    (acc : List (List String) × SearchState) (row : List String) (h : Inv acc.2) :
    Inv (step1Row cols fs q acc row).2 := by
  unfold step1Row
  split
  · exact addDocs_inv _ _ _ h
  · exact h

theorem step1Row_preview (cols : List String) (fs : List FolderNode) (q : String)
    (acc : List (List String) × SearchState) (row : List String)
    (h : ∀ d ∈ acc.2.docs, d.preview = "(student document)") :
    ∀ d ∈ (step1Row cols fs q acc row).2.docs, d.preview = "(student document)" := by
  unfold step1Row
  split
  · exact addDocs_preview _ _ _ h
  · exact h

theorem inv_init : Inv ⟨[], []⟩ :=
  ⟨List.nodup_nil, by simp [docKeys]⟩

theorem step1_inv (students : Table) (fs : List FolderNode) (q : String) :
    Inv (step1 students fs q).2 :=
  foldl_pair_pres _ Inv (fun acc row h => step1Row_inv students.cols fs q acc row h)
    students.rows ([], ⟨[], []⟩) inv_init

theorem step1_preview (students : Table) (fs : List FolderNode) (q : String) :
    ∀ d ∈ (step1 students fs q).2.docs, d.preview = "(student document)" :=
  foldl_pair_pres _ (fun st => ∀ d ∈ st.docs, d.preview = "(student document)")
    (fun acc row h => step1Row_preview students.cols fs q acc row h)
    students.rows ([], ⟨[], []⟩) (by intro d hd; simp at hd)

theorem processFile_stExtends (pdf : Bool) (n q : String) (st : SearchState)
    (file : FileNode) : StExtends st (processFile pdf n q st file) := by
  unfold processFile
  dsimp only
  split
  · exact pushDoc_stExtends _ _ _ rfl
  · split
    · exact pushDoc_stExtends _ _ _ rfl
    · split
      · exact pushDoc_stExtends _ _ _ rfl
      · exact stExtends_refl _

theorem processFile_inv (pdf : Bool) (n q : String) (st : SearchState)
    (file : FileNode) (h : Inv st) : Inv (processFile pdf n q st file) := by
  unfold processFile
  dsimp only
  split
  · exact pushDoc_inv _ _ rfl h
  · split
    · exact pushDoc_inv _ _ rfl h
    · split
      · exact pushDoc_inv _ _ rfl h
      · exact h

theorem processFile_mem {pdf : Bool} {n q : String} {st : SearchState}
    {file : FileNode} {e : DocHit} (he : e ∈ (processFile pdf n q st file).docs) :
    e ∈ st.docs ∨ (e.student_id = n ∧ (q = lowerStr n → e.preview = "(student document)")) := by
  unfold processFile at he
  dsimp only at he
  by_cases h1 : q = lowerStr n
  · rw [if_pos h1] at he
    rcases pushDoc_mem he with h | h
    · exact Or.inl h
    · subst h
      exact Or.inr ⟨rfl, fun _ => rfl⟩
  · rw [if_neg h1] at he
    split at he
    · rcases pushDoc_mem he with h | h
      · exact Or.inl h
      · subst h
        exact Or.inr ⟨rfl, fun hq => absurd hq h1⟩
    · split at he
      · rcases pushDoc_mem he with h | h
        · exact Or.inl h
        · subst h
          exact Or.inr ⟨rfl, fun hq => absurd hq h1⟩
      · exact Or.inl he

theorem processFolder_stExtends (pdf : Bool) (q : String) (st : SearchState)
    (folder : FolderNode) : StExtends st (processFolder pdf q st folder) :=
  foldl_stExtends _ (fun st2 file => processFile_stExtends pdf folder.name q st2 file)
    folder.files st

theorem processFolder_inv (pdf : Bool) (q : String) (st : SearchState)
    (folder : FolderNode) (h : Inv st) : Inv (processFolder pdf q st folder) :=
  foldl_pres _ Inv (fun st2 file h2 => processFile_inv pdf folder.name q st2 file h2)
    folder.files st h

theorem processFolder_mem {pdf : Bool} {q : String} {st : SearchState}
    {folder : FolderNode} {e : DocHit} (he : e ∈ (processFolder pdf q st folder).docs) :
    e ∈ st.docs ∨ (q = lowerStr e.student_id → e.preview = "(student document)") := by
  refine foldl_pres (processFile pdf folder.name q)
    (fun st2 => ∀ d ∈ st2.docs,
      d ∈ st.docs ∨ (q = lowerStr d.student_id → d.preview = "(student document)"))
    ?_ folder.files st (fun d hd => Or.inl hd) e he
  intro st2 file h2 d hd
  rcases processFile_mem hd with h3 | ⟨hsid, himp⟩
  · exact h2 d h3
  · refine Or.inr ?_
    rw [hsid]
    exact himp

theorem step3_stExtends (pdf : Bool) (fs : List FolderNode) (q : String)
    (st : SearchState) : StExtends st (step3 pdf fs q st) :=
  foldl_stExtends _ (fun st2 folder => processFolder_stExtends pdf q st2 folder) fs st

theorem step3_inv (pdf : Bool) (fs : List FolderNode) (q : String)
    (st : SearchState) (h : Inv st) : Inv (step3 pdf fs q st) :=
  foldl_pres _ Inv (fun st2 folder h2 => processFolder_inv pdf q st2 folder h2) fs st h

theorem step3_mem {pdf : Bool} {fs : List FolderNode} {q : String} {st : SearchState}
    {e : DocHit} (he : e ∈ (step3 pdf fs q st).docs) :
    e ∈ st.docs ∨ (q = lowerStr e.student_id → e.preview = "(student document)") := by
  refine foldl_pres (processFolder pdf q)
    (fun st2 => ∀ d ∈ st2.docs,
      d ∈ st.docs ∨ (q = lowerStr d.student_id → d.preview = "(student document)"))
    ?_ fs st (fun d hd => Or.inl hd) e he
  intro st2 folder h2 d hd
  rcases processFolder_mem hd with h3 | h3
  · exact h2 d h3
  · exact Or.inr h3

theorem applyFilter_docs (ft : String) (r : Results) :
    (applyFilter ft r).documents = r.documents ∨ (applyFilter ft r).documents = [] := by
  unfold applyFilter
  split
  · exact Or.inr rfl
  · split
    · exact Or.inr rfl
    · split
      · exact Or.inl rfl
      · exact Or.inl rfl

theorem normalizeGrades_of_long (t : Table)
    (h : "student_id" ∉ t.cols ∨ ¬ t.cols.length > 2 ∨ t.rows = []) :
    normalizeGrades t = t := by
  unfold normalizeGrades
  rw [if_neg]
  rintro ⟨hne, hmem, hlen⟩
  rcases h with h | h | h
  · exact h hmem
  · exact h hlen
  · exact hne (by simp [h])

theorem matchPhase_docKeys_nodup (db : DB) (q : String) :
    (docKeys (matchPhase db q).documents).Nodup := by
  unfold matchPhase
  dsimp only
  split
  · exact (step3_inv db.pdfReaderAvail db.fs q _ (step1_inv db.students db.fs q)).1
  · exact (step1_inv db.students db.fs q).1

theorem matchPhase_docs (db : DB) (q : String) :
    ∃ extra, (matchPhase db q).documents = (step1 db.students db.fs q).2.docs ++ extra ∧
      ∀ d ∈ extra, d.key ∉ docKeys (step1 db.students db.fs q).2.docs := by
  unfold matchPhase
  dsimp only
  split
  · obtain ⟨hs, extra, hdocs, hkeys⟩ :=
      step3_stExtends db.pdfReaderAvail db.fs q (step1 db.students db.fs q).2
    exact ⟨extra, hdocs, fun d hd hk =>
      hkeys d hd ((step1_inv db.students db.fs q).2 _ hk)⟩
  · exact ⟨[], by simp, by simp⟩

/-- C1: a grades table with a `student_id` column and more than two
columns is pivoted: every non-identity column becomes one long row per
(student_id, course_id) pair (stated on the Metric Records the table
denotes, which also covers the zero-row edge case); the concrete wide
table `student_id,CS101,CS102` with row `S1,88,91` normalizes to
exactly the two records (S1,CS101,88) and (S1,CS102,91); a table
without a `student_id` column or with at most two columns passes
through unchanged. -/
theorem C1_wide_long_disambiguation :
    (∀ t : Table, t.rows ≠ [] → "student_id" ∈ t.cols → t.cols.length > 2 →
      normalizeGrades t = meltTable t) ∧
    (∀ t : Table, "student_id" ∈ t.cols → t.cols.length > 2 →
      metricRecords (normalizeGrades t) = metricRecords (meltTable t)) ∧
    (∀ t : Table, "student_id" ∉ t.cols ∨ ¬ t.cols.length > 2 → normalizeGrades t = t) ∧
    normalizeGrades wideEx =
      ⟨["student_id", "course_id", "score"], [["S1", "CS101", "88"], ["S1", "CS102", "91"]]⟩ := by
  have hwide : ∀ t : Table, t.rows ≠ [] → "student_id" ∈ t.cols → t.cols.length > 2 →
      normalizeGrades t = meltTable t := by
    intro t h1 h2 h3
    unfold normalizeGrades
    rw [if_pos ⟨by simp [List.isEmpty_iff, h1], h2, h3⟩]
  refine ⟨hwide, ?_, ?_, by decide⟩
  · intro t h2 h3
    by_cases hr : t.rows = []
    · rw [normalizeGrades_of_long t (Or.inr (Or.inr hr))]
      unfold metricRecords meltTable
      simp [hr]
    · rw [hwide t hr h2 h3]
  · intro t h
    exact normalizeGrades_of_long t (by tauto)

/-- C1 witness: the general parts of `C1_wide_long_disambiguation`
applied at the concrete wide table and at a two-column table. -/
theorem C1_wide_long_disambiguation_witness :
    normalizeGrades wideEx = meltTable wideEx ∧
    normalizeGrades ⟨["student_id", "CS101"], [["S1", "88"]]⟩ =
      ⟨["student_id", "CS101"], [["S1", "88"]]⟩ :=
  ⟨C1_wide_long_disambiguation.1 wideEx (by decide) (by decide) (by decide),
   C1_wide_long_disambiguation.2.2.1 ⟨["student_id", "CS101"], [["S1", "88"]]⟩ (by decide)⟩

/-- C2 counterexample: the already-long table `student_id,course_id,score`
with row `S1,CS101,88` satisfies the wide heuristic and is melted again:
normalization is not a no-op on it, not even up to row order. -/
theorem C2_long_noop_cex :
    normalizeGrades longEx ≠ longEx ∧
    ¬ List.Perm (normalizeGrades longEx).rows longEx.rows ∧
    normalizeGrades longEx =
      ⟨["student_id", "course_id", "score"],
        [["S1", "course_id", "CS101"], ["S1", "score", "88"]]⟩ := by decide

/-- C2 amended: normalizing a metric table is a no-op exactly when the
layout heuristic classifies it as long — it lacks a `student_id`
column, has at most two columns, or has no rows; an already-long table
with a `student_id` column and more than two columns is melted again. -/
theorem C2_long_noop_amended (t : Table)
    (h : "student_id" ∉ t.cols ∨ ¬ t.cols.length > 2 ∨ t.rows = []) :
    normalizeGrades t = t :=
  normalizeGrades_of_long t h

/-- C2 witness: `C2_long_noop_amended` at a two-column long table. -/
theorem C2_long_noop_amended_witness :
    normalizeGrades ⟨["student_id", "score"], [["S1", "90"]]⟩ =
      ⟨["student_id", "score"], [["S1", "90"]]⟩ :=
  C2_long_noop_amended ⟨["student_id", "score"], [["S1", "90"]]⟩ (by decide)

/-- C3: in every query execution the documents sequence contains each
(student_id, filename) key at most once; in particular the query "s1"
on `exDB` — which matches student S1 by identity and also occurs in the
filename "s1_notes.txt" — yields exactly one hit for that key. -/
theorem C3_document_dedup :
    (∀ (db : DB) (qraw filter_type : String),
      (docKeys (index db qraw filter_type).documents).Nodup) ∧
    docKeys (index exDB "s1" "all").documents = [("S1", "s1_notes.txt")] := by
  refine ⟨?_, by decide⟩
  intro db qraw filter_type
  unfold index
  dsimp only
  split
  · simp [emptyResults, docKeys]
  · rcases applyFilter_docs filter_type
        (matchPhase db (lowerStr (stripStr (stripStr qraw)))) with h | h <;> rw [h]
    · exact matchPhase_docKeys_nodup db (lowerStr (stripStr (stripStr qraw)))
    · simp [docKeys]

/-- C4: `extract_text_from_file` is total — it returns a string for
every file reference — and returns the empty string for an unsupported
suffix, a failed text read, a missing PDF capability, and a failed PDF
parse. -/
theorem C4_extract_total :
    (∀ (b : Bool) (f : FileRef), ∃ s : String, extract_text_from_file b f = s) ∧
    (∀ (b : Bool) (f : FileRef),
      (lowerStr f.suffix ≠ ".txt" → lowerStr f.suffix ≠ ".pdf" →
        extract_text_from_file b f = "") ∧
      (lowerStr f.suffix = ".txt" → f.readResult = none → extract_text_from_file b f = "") ∧
      (lowerStr f.suffix = ".pdf" → b = false → extract_text_from_file b f = "") ∧
      (lowerStr f.suffix = ".pdf" → f.pdfPages = none → extract_text_from_file b f = "")) := by
  refine ⟨fun b f => ⟨extract_text_from_file b f, rfl⟩, fun b f => ⟨?_, ?_, ?_, ?_⟩⟩
  · intro h1 h2
    unfold extract_text_from_file
    rw [if_neg h1, if_neg h2]
  · intro h1 h2
    unfold extract_text_from_file
    rw [if_pos h1, h2]
  · intro h1 h2
    have ht : lowerStr f.suffix ≠ ".txt" := by rw [h1]; decide
    unfold extract_text_from_file
    rw [if_neg ht, if_pos h1, h2]
    rfl
  · intro h1 h2
    have ht : lowerStr f.suffix ≠ ".txt" := by rw [h1]; decide
    unfold extract_text_from_file
    rw [if_neg ht, if_pos h1, h2]
    cases b <;> rfl

/-- C4 witness: `C4_extract_total` at an unsupported suffix, a failed
text read, a PDF without the PyPDF2 capability, and a corrupt PDF. -/
theorem C4_extract_total_witness :
    extract_text_from_file false ⟨".doc", none, none⟩ = "" ∧
    extract_text_from_file true ⟨".txt", none, none⟩ = "" ∧
    extract_text_from_file false ⟨".pdf", some "x", some [some "y"]⟩ = "" ∧
    extract_text_from_file true ⟨".pdf", some "x", none⟩ = "" :=
  ⟨(C4_extract_total.2 false ⟨".doc", none, none⟩).1 (by decide) (by decide),
   (C4_extract_total.2 true ⟨".txt", none, none⟩).2.1 (by decide) rfl,
   (C4_extract_total.2 false ⟨".pdf", some "x", some [some "y"]⟩).2.2.1 (by decide) rfl,
   (C4_extract_total.2 true ⟨".pdf", some "x", none⟩).2.2.2 (by decide) rfl⟩

/-- C5: a query that is empty after trimming returns all three result
sequences empty, for every loaded state and every filter value. -/
theorem C5_empty_query (db : DB) (qraw filter_type : String) (h : stripStr qraw = "") :
    index db qraw filter_type = emptyResults := by
  unfold index
  dsimp only
  rw [if_pos h]

/-- C5 witness: `C5_empty_query` on a whitespace-only query. -/
theorem C5_empty_query_witness : index exDB "   " "docs" = emptyResults :=
  C5_empty_query exDB "   " "docs" (by decide)

/-- C6 counterexample: merging the grades row (S1,CS999,88) with
reference metadata that only knows CS101 keeps the row but fills its
`title` with NaN — which stringifies to "nan" — not with the empty
string, refuting the blank-metadata part of the claim. -/
theorem C6_blank_metadata_cex :
    (mergeLeft gradesEx coursesEx "course_id").rows =
      [[Val.str "S1", Val.str "CS999", Val.str "88", Val.nan]] ∧
    Val.nan ≠ Val.str "" ∧ Val.pyStr Val.nan = "nan" := by decide

/-- C6 amended: the merge is a left-outer join on the metric key — every
normalized Metric Record appears in the merged output (no row is
dropped), and a record whose key has no match in the reference metadata
gets missing (NaN) metadata fields, which downstream stringification
renders as "nan" rather than as blank. -/
theorem C6_left_outer_merge_amended :
    (∀ (l r : Table) (key : String) (lr : List String), lr ∈ l.rows →
      ∃ ext, lr.map Val.str ++ ext ∈ (mergeLeft l r key).rows) ∧
    (∀ (l r : Table) (key : String) (lr : List String), lr ∈ l.rows →
      (r.rows.filter (fun rr => getCell r.cols rr key "" = getCell l.cols lr key "")).isEmpty →
      lr.map Val.str ++ (r.cols.filter (fun c => c ≠ key)).map (fun _ => Val.nan) ∈
        (mergeLeft l r key).rows) ∧
    Val.pyStr Val.nan = "nan" := by
  refine ⟨?_, ?_, rfl⟩
  · intro l r key lr hlr
    unfold mergeLeft
    dsimp only
    simp only [List.mem_flatMap]
    by_cases hh : (r.rows.filter
        (fun rr => getCell r.cols rr key "" = getCell l.cols lr key "")).isEmpty
    · refine ⟨(r.cols.filter (fun c => c ≠ key)).map (fun _ => Val.nan), lr, hlr, ?_⟩
      rw [if_pos hh]
      exact List.mem_singleton_self _
    · obtain ⟨rr, hrr⟩ := List.exists_mem_of_ne_nil
        (r.rows.filter (fun rr => getCell r.cols rr key "" = getCell l.cols lr key "")) (by
          intro hnil
          exact hh (by simp [hnil]))
      refine ⟨(r.cols.filter (fun c => c ≠ key)).map
        (fun c => Val.str (getCell r.cols rr c "")), lr, hlr, ?_⟩
      rw [if_neg hh]
      exact List.mem_map_of_mem _ hrr
  · intro l r key lr hlr hfilter
    unfold mergeLeft
    dsimp only
    simp only [List.mem_flatMap]
    refine ⟨lr, hlr, ?_⟩
    rw [if_pos hfilter]
    exact List.mem_singleton_self _

/-- C6 witness: `C6_left_outer_merge_amended` at the concrete unmatched
row: the record survives the merge with a NaN metadata cell. -/
theorem C6_left_outer_merge_amended_witness :
    ["S1", "CS999", "88"].map Val.str ++
      (coursesEx.cols.filter (fun c => c ≠ "course_id")).map (fun _ => Val.nan) ∈
      (mergeLeft gradesEx coursesEx "course_id").rows :=
  C6_left_outer_merge_amended.2.1 gradesEx coursesEx "course_id" ["S1", "CS999", "88"]
    (by decide) (by decide)

/-- C7 counterexample: the query "ada" matches student S1 by name, so
step 1 includes S1's document with the placeholder preview — which is
"(student document)", not the claimed "(document available)". -/
theorem C7_placeholder_cex :
    (index exDB "ada" "all").documents =
      [⟨"S1", "s1_notes.txt", "(student document)"⟩] ∧
    ("(student document)" : String) ≠ "(document available)" := by decide

/-- C7 amended: every document hit produced because the query matched a
student record (step 1), and every hit newly produced by step 3 when
the query exactly equals the folder's student id, carries the
placeholder preview "(student document)". -/
theorem C7_placeholder_amended :
    (∀ (students : Table) (fs : List FolderNode) (q : String),
      ∀ d ∈ (step1 students fs q).2.docs, d.preview = "(student document)") ∧
    (∀ (pdf : Bool) (fs : List FolderNode) (q : String) (st : SearchState),
      ∀ d ∈ (step3 pdf fs q st).docs, d ∉ st.docs →
        q = lowerStr d.student_id → d.preview = "(student document)") :=
  ⟨fun students fs q => step1_preview students fs q,
   fun pdf fs q st d hd hnot hq => by
     rcases step3_mem hd with h | h
     · exact absurd h hnot
     · exact h hq⟩

/-- C7 witness: `C7_placeholder_amended` at the concrete step-1 hit of
`exDB` for the query "ada". -/
theorem C7_placeholder_amended_witness :
    DocHit.preview ⟨"S1", "s1_notes.txt", "(student document)"⟩ = "(student document)" :=
  C7_placeholder_amended.1 exDB.students exDB.fs "ada"
    ⟨"S1", "s1_notes.txt", "(student document)"⟩ (by decide)

/-- C8: the result filter with category "students" empties the courses
and documents sequences, "courses" empties students and documents, and
"docs" empties students and courses; the selected sequence is the
unchanged pre-filter sequence. -/
theorem C8_filter_frame (r : Results) :
    applyFilter "students" r = ⟨r.students, [], []⟩ ∧
    applyFilter "courses" r = ⟨[], r.courses, []⟩ ∧
    applyFilter "docs" r = ⟨[], [], r.documents⟩ :=
  ⟨rfl, rfl, rfl⟩

/-- C9: any filter value outside {"students", "courses", "docs"} —
"all", the empty string, or anything unrecognized — leaves all three
result sequences exactly as the matcher produced them. -/
theorem C9_filter_default (filter_type : String) (r : Results)
    (h1 : filter_type ≠ "students") (h2 : filter_type ≠ "courses")
    (h3 : filter_type ≠ "docs") : applyFilter filter_type r = r := by
  unfold applyFilter
  rw [if_neg h1, if_neg h2, if_neg h3]

/-- C9 witness: `C9_filter_default` at filter "all" on a non-empty result set. -/
theorem C9_filter_default_witness :
    applyFilter "all" ⟨[["S1"]], [], [⟨"S1", "a.txt", "p"⟩]⟩ =
      ⟨[["S1"]], [], [⟨"S1", "a.txt", "p"⟩]⟩ :=
  C9_filter_default "all" ⟨[["S1"]], [], [⟨"S1", "a.txt", "p"⟩]⟩
    (by decide) (by decide) (by decide)

/-- C10: within one query execution the document hits produced by step 1
form an unchanged prefix of the matcher's documents sequence, and no
later matching rule adds a hit whose (student_id, filename) key is
already among them; in particular on `exDB` the query "s1" — which also
occurs in the filename "s1_notes.txt" — leaves the placeholder hit
untouched and never shows the file's content preview. -/
theorem C10_no_overwrite :
    (∀ (db : DB) (q : String),
      ∃ extra, (matchPhase db q).documents = (step1 db.students db.fs q).2.docs ++ extra ∧
        ∀ d ∈ extra, d.key ∉ docKeys (step1 db.students db.fs q).2.docs) ∧
    (matchPhase exDB "s1").documents = [⟨"S1", "s1_notes.txt", "(student document)"⟩] :=
  ⟨fun db q => matchPhase_docs db q, by decide⟩

end SmartEdu
